import Mathlib

/-!
Shallow embedding of the MCP expense-tracker client (mcp_client.py):
schema translation for Gemini, resource aggregation, the tool-call loop of
process_query, the interactive chat loop, and cleanup.
-/

namespace MCP

/-- Argument values carried in a model function-call request. -/
inductive Value where
  | num : Int → Value
  | str : String → Value
deriving DecidableEq

/-- A function-call argument mapping, as dict(function_call.args). -/
abbrev Args := List (String × Value)

/-- One entry of inputSchema.properties: a JSON-schema parameter, with
optional type tag and optional description (dict .get access in the code). -/
structure ParamInfo where
  type : Option String
  description : Option String
deriving DecidableEq

/-- A tool inputSchema dict: optional properties map and optional required
list, mirroring the membership tests the code performs on the dict. -/
structure InputSchema where
  properties : Option (List (String × ParamInfo))
  required : Option (List String)
deriving DecidableEq

/-- An MCP tool descriptor as used by _convert_tools_for_gemini. -/
structure ToolDescriptor where
  name : String
  description : Option String
  inputSchema : Option InputSchema
deriving DecidableEq

/-- The members of the genai.protos.Type enum, the target type vocabulary
reached through getattr in the code. -/
inductive GeminiType where
  | STRING
  | NUMBER
  | INTEGER
  | BOOLEAN
  | ARRAY
  | OBJECT
  | TYPE_UNSPECIFIED
deriving DecidableEq

/-- Resolution of an uppercased type tag against genai.protos.Type, the
getattr step: none models the AttributeError for an unmapped name. -/
def geminiTypeOfString (s : String) : Option GeminiType :=
  if s = "STRING" then some GeminiType.STRING
  else if s = "NUMBER" then some GeminiType.NUMBER
  else if s = "INTEGER" then some GeminiType.INTEGER
  else if s = "BOOLEAN" then some GeminiType.BOOLEAN
  else if s = "ARRAY" then some GeminiType.ARRAY
  else if s = "OBJECT" then some GeminiType.OBJECT
  else if s = "TYPE_UNSPECIFIED" then some GeminiType.TYPE_UNSPECIFIED
  else none

/-- The failure raised when a declared type has no member in
genai.protos.Type (the AttributeError from getattr), carrying the
unmapped uppercased tag. -/
structure SchemaError where
  badType : String
deriving DecidableEq

/-- One translated parameter of a Gemini Schema. -/
structure GeminiParam where
  type : GeminiType
  description : String
deriving DecidableEq

/-- A genai FunctionDeclaration as built by _convert_tools_for_gemini. -/
structure FunctionDeclaration where
  name : String
  description : String
  parameters : List (String × GeminiParam)
  required : List String
deriving DecidableEq

/-- ASCII uppercasing, the .upper() call applied to the type tags (JSON
schema type tags are ASCII, where Python and ASCII uppercasing agree). -/
def upperString (s : String) : String :=
  String.mk (s.data.map Char.toUpper)

/-- The effective uppercased type tag of a parameter:
param_info.get with default string, then .upper(). -/
def upperType (p : ParamInfo) : String :=
  upperString (p.type.getD "string")

/-- The properties dict built by the first half of the loop body in
_convert_tools_for_gemini: entries (name, uppercased type tag, description),
produced only when inputSchema is truthy and has a properties key. -/
def buildProps (tool : ToolDescriptor) : List (String × String × String) :=
  match tool.inputSchema with
  | none => []
  | some s =>
    match s.properties with
    | none => []
    | some props =>
      props.map (fun np => (np.1, upperType np.2, np.2.description.getD ""))

/-- The required list: copied from the schema only inside the branch that
also requires a properties key, else left at its initial empty value. -/
def buildRequired (tool : ToolDescriptor) : List String :=
  match tool.inputSchema with
  | none => []
  | some s =>
    match s.properties with
    | none => []
    | some _ => s.required.getD []

/-- The getattr resolution over the built properties, in order; the first
unmapped tag raises (models the Schema comprehension in the code). -/
def resolveParams : List (String × String × String) → Except SchemaError (List (String × GeminiParam))
  | [] => Except.ok []
  | (n, t, d) :: rest =>
    match geminiTypeOfString t with
    | none => Except.error ⟨t⟩
    | some gt =>
      match resolveParams rest with
      | Except.error e => Except.error e
      | Except.ok ps => Except.ok ((n, GeminiParam.mk gt d) :: ps)

/-- Translation of one tool descriptor into a FunctionDeclaration,
as one iteration of _convert_tools_for_gemini. -/
def translateTool (tool : ToolDescriptor) : Except SchemaError FunctionDeclaration :=
  match resolveParams (buildProps tool) with
  | Except.error e => Except.error e
  | Except.ok ps =>
    Except.ok
      { name := tool.name
        description := tool.description.getD ""
        parameters := ps
        required := buildRequired tool }

/-- The whole _convert_tools_for_gemini: translate every available tool,
failing on the first untranslatable one. -/
def convertToolsForGemini : List ToolDescriptor → Except SchemaError (List FunctionDeclaration)
  | [] => Except.ok []
  | t :: ts =>
    match translateTool t with
    | Except.error e => Except.error e
    | Except.ok fd =>
      match convertToolsForGemini ts with
      | Except.error e => Except.error e
      | Except.ok fds => Except.ok (fd :: fds)

/-- An MCP resource descriptor as used by _get_resources_content. -/
structure ResourceDescriptor where
  uri : String
  name : String
deriving DecidableEq

/-- The labeled block appended for a successfully read resource. -/
def resourceBlock (name content : String) : String :=
  "\n" ++ name ++ ":\n" ++ content ++ "\n"

/-- Plain concatenation of a list of strings, used to state what the
accumulator of _get_resources_content amounts to. -/
def concatAll : List String → String
  | [] => ""
  | s :: rest => s ++ concatAll rest

/-- The body of _get_resources_content: visit the resources in order; a
successful fetch (read_resource plus the contents indexing inside the try)
appends its labeled block, a failed one records a warning with the
resource URI and is skipped. Returns the accumulated text and the warned
URIs; it is total, so aggregation itself never raises. -/
def getResourcesContent (fetch : String → Except String String) :
    List ResourceDescriptor → String × List String
  | [] => ("", [])
  | r :: rest =>
    match fetch r.uri with
    | Except.ok c =>
      (resourceBlock r.name c ++ (getResourcesContent fetch rest).1,
       (getResourcesContent fetch rest).2)
    | Except.error _ =>
      ((getResourcesContent fetch rest).1,
       r.uri :: (getResourcesContent fetch rest).2)

/-- One part of a Gemini candidate content: either a function call (the
truthy function_call attribute) or plain text. -/
inductive Part where
  | functionCall (name : String) (args : Args)
  | text (s : String)
deriving DecidableEq

/-- A model response, reduced to candidates[0].content.parts. -/
structure ModelResponse where
  parts : List Part
deriving DecidableEq

/-- Text of a part, none when the part is a function call. -/
def partText : Part → Option String
  | Part.functionCall _ _ => none
  | Part.text s => some s

/-- The response.text accessor of the SDK: the concatenated text of the
parts, raising (none) when there are no parts or a non-text part. -/
def responseText (r : ModelResponse) : Option String :=
  match r.parts with
  | [] => none
  | ps =>
    if ps.all (fun p => (partText p).isSome)
    then some (concatAll (ps.filterMap partText))
    else none

/-- The result of session.call_tool: MCP reports tool-semantic failures
in-band with isError set and the message in content[0].text, which is the
text the code reads back. -/
structure ToolResult where
  isError : Bool
  text : String
deriving DecidableEq

/-- A transport- or protocol-level failure of call_tool, raised as an
exception rather than returned in-band. -/
structure TransportError where
  msg : String
deriving DecidableEq

/-- How process_query ends abnormally: a call_tool exception propagating
out of the loop, response.text raising on a malformed final response, or
the scripted model giving no further response. -/
inductive OrchErr where
  | transport (e : TransportError)
  | badResponse
  | scriptEnded
deriving DecidableEq

/-- Observable trace of one process_query run: the call_tool invocations
in order, the function-response turns sent back to the model in order,
and the returned final text. -/
structure QueryTrace where
  invocations : List (String × Args)
  functionResponses : List (String × String)
  finalText : String
deriving DecidableEq

/-- The while loop of process_query. The first argument of the recursion
is the script of model responses remaining from chat.send_message, the
second the response currently examined. The loop takes parts[0]; a truthy
function_call is dispatched directly through call_tool (invoke) — there is
no check of the name against available_tools — and its content text is
sent back as a FunctionResponse tagged with the same name; otherwise the
loop breaks and response.text is returned. -/
def processQueryLoop (invoke : String → Args → Except TransportError ToolResult) :
    List ModelResponse → ModelResponse → Except OrchErr QueryTrace
  | [], resp =>
    match resp.parts with
    | Part.functionCall name args :: _ =>
      match invoke name args with
      | Except.error e => Except.error (OrchErr.transport e)
      | Except.ok _ => Except.error OrchErr.scriptEnded
    | _ =>
      match responseText resp with
      | some t => Except.ok ⟨[], [], t⟩
      | none => Except.error OrchErr.badResponse
  | next :: rest, resp =>
    match resp.parts with
    | Part.functionCall name args :: _ =>
      match invoke name args with
      | Except.error e => Except.error (OrchErr.transport e)
      | Except.ok tr =>
        match processQueryLoop invoke rest next with
        | Except.error e => Except.error e
        | Except.ok t2 =>
          Except.ok ⟨(name, args) :: t2.invocations,
                     (name, tr.text) :: t2.functionResponses, t2.finalText⟩
    | _ =>
      match responseText resp with
      | some t => Except.ok ⟨[], [], t⟩
      | none => Except.error OrchErr.badResponse

/-- Outcome of one iteration of chat_loop for one input line. -/
inductive TurnResult where
  | quit
  | skip
  | answered (response : String)
  | reportedError (msg : String)
deriving DecidableEq

/-- Whitespace as tested by strip on the ASCII inputs in scope. -/
def isSpaceChar (c : Char) : Bool :=
  c = ' ' ∨ c = '\t' ∨ c = '\n' ∨ c = '\r'

/-- The .strip() call on the input line: drop whitespace from both ends
(ASCII whitespace, where Python and this model agree). -/
def stripString (s : String) : String :=
  String.mk (((s.data.dropWhile isSpaceChar).reverse.dropWhile isSpaceChar).reverse)

/-- ASCII lowercasing, the .lower() call on the stripped line. -/
def lowerString (s : String) : String :=
  String.mk (s.data.map Char.toLower)

/-- One iteration of chat_loop: strip the line, break on the quit
sentinels, skip empty input, otherwise run process_query; an exception
from it is caught, reported, and the loop goes on. -/
def chatStep (processQuery : String → Except String String) (rawLine : String) : TurnResult :=
  if lowerString (stripString rawLine) = "quit" ∨
      lowerString (stripString rawLine) = "exit" ∨
      lowerString (stripString rawLine) = "q" then
    TurnResult.quit
  else if stripString rawLine = "" then
    TurnResult.skip
  else
    match processQuery (stripString rawLine) with
    | Except.ok resp => TurnResult.answered resp
    | Except.error e => TurnResult.reportedError e

/-- The chat_loop read loop over a list of input lines: it stops only at a
quit sentinel, every other outcome (including a reported error) is
followed by reading the next line. -/
def chatLoop (processQuery : String → Except String String) : List String → List TurnResult
  | [] => []
  | line :: rest =>
    match chatStep processQuery line with
    | TurnResult.quit => [TurnResult.quit]
    | TurnResult.skip => TurnResult.skip :: chatLoop processQuery rest
    | TurnResult.answered r => TurnResult.answered r :: chatLoop processQuery rest
    | TurnResult.reportedError e => TurnResult.reportedError e :: chatLoop processQuery rest

/-- The connection fields of MCPClient that cleanup tests: whether
self.session and self.stdio_context are set. cleanup never assigns these
fields, so they keep their value across calls. -/
structure ClientState where
  sessionConnected : Bool
  stdioConnected : Bool
deriving DecidableEq

/-- The observable side effects of cleanup: how many times aexit has been
invoked on the session and on the stdio transport. -/
structure World where
  sessionAexitCalls : Nat
  stdioAexitCalls : Nat
deriving DecidableEq

/-- The cleanup method: if self.session is set, await its aexit; if
self.stdio_context is set, await its aexit. The fields are not cleared
and no closed flag is recorded, so the returned client state is the
input state unchanged. -/
def cleanup (c : ClientState) (w : World) : ClientState × World :=
  let w1 :=
    if c.sessionConnected then
      { w with sessionAexitCalls := w.sessionAexitCalls + 1 }
    else w
  let w2 :=
    if c.stdioConnected then
      { w1 with stdioAexitCalls := w1.stdioAexitCalls + 1 }
    else w1
  (c, w2)

/-! Concrete instances used to evaluate the definitions on closed inputs. -/

/-- A one-tool list for exercising the call loop. -/
def c1Tools : List ToolDescriptor :=
  [⟨"add_expense", some "Add an expense", none⟩]

/-- A call_tool stub that accepts any name and returns a fixed result. -/
def c1Invoke : String → Args → Except TransportError ToolResult :=
  fun _ _ => Except.ok ⟨false, "ran anyway"⟩

/-- A tool declaring a parameter whose type tag has no member in
genai.protos.Type even after uppercasing. -/
def c2Tool : ToolDescriptor :=
  ⟨"upload", some "Upload a file",
    some ⟨some [("blob", ⟨some "file", none⟩)], none⟩⟩

/-- A call_tool stub: one tool answers with an in-band error result, any
other name raises a transport failure. -/
def c3Invoke : String → Args → Except TransportError ToolResult :=
  fun n _ =>
    if n = "add_expense" then Except.ok ⟨true, "Invalid date format"⟩
    else Except.error ⟨"connection closed"⟩

/-- Three resources, the middle one set up to fail. -/
def c4Resources : List ResourceDescriptor :=
  [⟨"expense://categories", "categories"⟩,
   ⟨"expense://missing", "missing"⟩,
   ⟨"expense://recent", "recent"⟩]

/-- A fetch where every read fails. -/
def c4FailFetch : String → Except String String :=
  fun _ => Except.error "server down"

/-- The add_number tool of the scenario in the spec. -/
def c5Tools : List ToolDescriptor :=
  [⟨"add_number", some "Add two numbers",
    some ⟨some [("a", ⟨some "number", none⟩), ("b", ⟨some "number", none⟩)],
          some ["a", "b"]⟩⟩]

/-- call_tool for the scenario: add_number with a=2, b=3 returns 5. -/
def c5Invoke : String → Args → Except TransportError ToolResult :=
  fun n args =>
    if n = "add_number" ∧ args = [("a", Value.num 2), ("b", Value.num 3)]
    then Except.ok ⟨false, "5"⟩
    else Except.error ⟨"unexpected call"⟩

/-- A client whose session and stdio context are both set. -/
def connectedClient : ClientState := ⟨true, true⟩

/-- A tool whose inputSchema has a required list but no properties map. -/
def c7Tool : ToolDescriptor :=
  ⟨"summarize", none, some ⟨none, some ["start_date"]⟩⟩

/-- A tool whose inputSchema has both a properties map and a required
list. -/
def c7WitnessTool : ToolDescriptor :=
  ⟨"add_expense", some "Add",
    some ⟨some [("amount", ⟨some "number", none⟩)], some ["amount"]⟩⟩

/-! Helper lemmas shared by the claim theorems. -/

/-- If some entry of the built properties carries an unmapped type tag,
getattr resolution raises. -/
lemma resolveParams_error_of_bad (n t d : String)
    (l : List (String × String × String)) (h : (n, t, d) ∈ l)
    (hb : geminiTypeOfString t = none) :
    ∃ e, resolveParams l = Except.error e := by
  induction l with
  | nil => cases h
  | cons hd rest ih =>
    obtain ⟨m, u, d2⟩ := hd
    rcases List.mem_cons.mp h with heq | hm
    · simp only [Prod.mk.injEq] at heq
      obtain ⟨h1, h2, h3⟩ := heq
      subst h2
      exact ⟨⟨t⟩, by simp [resolveParams, hb]⟩
    · rcases ih hm with ⟨e, he⟩
      cases hg : geminiTypeOfString u with
      | none => exact ⟨⟨u⟩, by simp [resolveParams, hg]⟩
      | some gt => exact ⟨e, by simp [resolveParams, hg, he]⟩

/-- Every entry of a successfully resolved properties list appears in the
result with its type tag mapped. -/
lemma resolveParams_ok_mem (l : List (String × String × String))
    (ps : List (String × GeminiParam)) (h : resolveParams l = Except.ok ps)
    (n t d : String) (hm : (n, t, d) ∈ l) :
    ∃ gt, geminiTypeOfString t = some gt ∧ (n, GeminiParam.mk gt d) ∈ ps := by
  induction l generalizing ps with
  | nil => cases hm
  | cons hd rest ih =>
    obtain ⟨m, u, d2⟩ := hd
    cases hg : geminiTypeOfString u with
    | none => simp [resolveParams, hg] at h
    | some gt =>
      cases hr : resolveParams rest with
      | error e => simp [resolveParams, hg, hr] at h
      | ok ps2 =>
        simp only [resolveParams, hg, hr] at h
        injection h with h
        rcases List.mem_cons.mp hm with heq | hmem
        · simp only [Prod.mk.injEq] at heq
          obtain ⟨h1, h2, h3⟩ := heq
          subst h1; subst h2; subst h3
          refine ⟨gt, hg, ?_⟩
          rw [← h]
          exact List.mem_cons_self _ _
        · rcases ih ps2 hr hmem with ⟨gt2, hg2, hmem2⟩
          refine ⟨gt2, hg2, ?_⟩
          rw [← h]
          exact List.mem_cons_of_mem _ hmem2

/-- A successful translation records exactly the resolved parameters, the
defaulted description, and the buildRequired list. -/
lemma translateTool_ok (tool : ToolDescriptor) (fd : FunctionDeclaration)
    (h : translateTool tool = Except.ok fd) :
    resolveParams (buildProps tool) = Except.ok fd.parameters ∧
      fd = ⟨tool.name, tool.description.getD "", fd.parameters, buildRequired tool⟩ := by
  cases hr : resolveParams (buildProps tool) with
  | error e => simp [translateTool, hr] at h
  | ok ps =>
    simp only [translateTool, hr] at h
    injection h with h
    constructor
    · rw [← h]
    · rw [← h]

/-- When a response starts with a text part and has no function-call part,
the loop breaks immediately and returns response.text. -/
lemma loop_breaks_on_text (invoke : String → Args → Except TransportError ToolResult)
    (script : List ModelResponse) (t : String) (rest : List Part)
    (h : ∀ p ∈ rest, (partText p).isSome = true) :
    processQueryLoop invoke script ⟨Part.text t :: rest⟩ =
      Except.ok ⟨[], [], concatAll ((Part.text t :: rest).filterMap partText)⟩ := by
  have hall : (Part.text t :: rest).all (fun p => (partText p).isSome) = true := by
    rw [List.all_eq_true]
    intro p hp
    rcases List.mem_cons.mp hp with h1 | h2
    · rw [h1]; rfl
    · exact h p h2
  cases script with
  | nil => simp [processQueryLoop, responseText, hall]
  | cons next rest2 => simp [processQueryLoop, responseText, hall]

/-! Claim theorems. -/

/-- C4: resource aggregation visits the resources in the supplied order
and returns the concatenation of the labeled blocks of exactly the
resources whose fetch succeeds, in that order; a failed fetch is reported
with that resource URI and skipped; the aggregation is total (it never
raises) and returns the empty string when all fetches fail. -/
theorem c4_aggregation (resources : List ResourceDescriptor)
    (fetch : String → Except String String) :
    ((getResourcesContent fetch resources).1 =
      concatAll (resources.filterMap (fun r =>
        match fetch r.uri with
        | Except.ok c => some (resourceBlock r.name c)
        | Except.error _ => none))) ∧
    ((getResourcesContent fetch resources).2 =
      resources.filterMap (fun r =>
        match fetch r.uri with
        | Except.ok _ => none
        | Except.error _ => some r.uri)) ∧
    ((∀ r ∈ resources, ∃ e, fetch r.uri = Except.error e) →
      (getResourcesContent fetch resources).1 = "") := by
  have hmain :
      ((getResourcesContent fetch resources).1 =
        concatAll (resources.filterMap (fun r =>
          match fetch r.uri with
          | Except.ok c => some (resourceBlock r.name c)
          | Except.error _ => none))) ∧
      ((getResourcesContent fetch resources).2 =
        resources.filterMap (fun r =>
          match fetch r.uri with
          | Except.ok _ => none
          | Except.error _ => some r.uri)) := by
    induction resources with
    | nil => exact ⟨rfl, rfl⟩
    | cons r rest ih =>
      rcases ih with ⟨ih1, ih2⟩
      cases hf : fetch r.uri with
      | ok c =>
        constructor
        · simp only [getResourcesContent, hf, List.filterMap_cons, concatAll]
          rw [ih1]
        · simp only [getResourcesContent, hf, List.filterMap_cons]
          exact ih2
      | error e =>
        constructor
        · simp only [getResourcesContent, hf, List.filterMap_cons]
          exact ih1
        · simp only [getResourcesContent, hf, List.filterMap_cons]
          rw [ih2]
  refine ⟨hmain.1, hmain.2, fun hall => ?_⟩
  rw [hmain.1]
  have hnil : (resources.filterMap (fun r =>
      match fetch r.uri with
      | Except.ok c => some (resourceBlock r.name c)
      | Except.error _ => none)) = [] := by
    rw [List.filterMap_eq_nil_iff]
    intro r hr
    rcases hall r hr with ⟨e, he⟩
    rw [he]
  rw [hnil]
  rfl

/-- C4 witness: with every fetch failing on a concrete resource list, the
aggregated text is empty. -/
theorem c4_witness : (getResourcesContent c4FailFetch c4Resources).1 = "" :=
  (c4_aggregation c4Resources c4FailFetch).2.2
    (fun _ _ => ⟨"server down", rfl⟩)

/-- C8: a tool whose inputSchema is absent or lacks a properties map
translates successfully to a declaration with empty parameters and empty
required list. -/
theorem c8_missing_schema_ok (tool : ToolDescriptor)
    (h : tool.inputSchema = none ∨
      ∃ s, tool.inputSchema = some s ∧ s.properties = none) :
    translateTool tool =
      Except.ok ⟨tool.name, tool.description.getD "", [], []⟩ := by
  have hbp : buildProps tool = [] := by
    rcases h with h | ⟨s, hs, hp⟩
    · simp [buildProps, h]
    · simp [buildProps, hs, hp]
  have hbr : buildRequired tool = [] := by
    rcases h with h | ⟨s, hs, hp⟩
    · simp [buildRequired, h]
    · simp [buildRequired, hs, hp]
  simp [translateTool, hbp, resolveParams, hbr]

/-- C8 witness: a concrete tool with no inputSchema translates to the
empty declaration. -/
theorem c8_witness :
    translateTool ⟨"list_expenses", none, none⟩ =
      Except.ok ⟨"list_expenses", "", [], []⟩ :=
  c8_missing_schema_ok ⟨"list_expenses", none, none⟩ (Or.inl rfl)

/-- C9: a response whose parts are plain text with no function call makes
the loop return that text at once, with zero tool invocations and zero
function-response turns. -/
theorem c9_plain_text_single_roundtrip
    (invoke : String → Args → Except TransportError ToolResult)
    (script : List ModelResponse) (t : String) (rest : List Part)
    (h : ∀ p ∈ rest, (partText p).isSome = true) :
    processQueryLoop invoke script ⟨Part.text t :: rest⟩ =
      Except.ok ⟨[], [], concatAll ((Part.text t :: rest).filterMap partText)⟩ :=
  loop_breaks_on_text invoke script t rest h

/-- C9 witness: a concrete single-text response returns its text with no
invocation trace. -/
theorem c9_witness :
    processQueryLoop c1Invoke [] ⟨[Part.text "Hello, ask me anything."]⟩ =
      Except.ok ⟨[], [], "Hello, ask me anything."⟩ := by
  have h := c9_plain_text_single_roundtrip c1Invoke [] "Hello, ask me anything." []
    (fun p hp => absurd hp (List.not_mem_nil p))
  simpa [concatAll, partText] using h

/-- C10: an input line that is empty after stripping neither quits the
shell nor reaches process_query; the loop just moves to the next line. -/
theorem c10_blank_input_skipped (processQuery : String → Except String String)
    (line : String) (rest : List String) (h : stripString line = "") :
    chatStep processQuery line = TurnResult.skip ∧
    chatLoop processQuery (line :: rest) =
      TurnResult.skip :: chatLoop processQuery rest := by
  have hstep : chatStep processQuery line = TurnResult.skip := by
    unfold chatStep
    rw [h]
    rw [if_neg (by decide), if_pos rfl]
  exact ⟨hstep, by simp only [chatLoop, hstep]⟩

/-- C10 witness: a whitespace-only line is skipped and the loop reads on. -/
theorem c10_witness :
    chatStep (fun s => Except.ok s) "   " = TurnResult.skip ∧
    chatLoop (fun s => Except.ok s) ["   "] =
      TurnResult.skip :: chatLoop (fun s => Except.ok s) [] :=
  c10_blank_input_skipped (fun s => Except.ok s) "   " [] (by decide)

/-- C5: a first response with exactly one function-call request for a
known tool, answered by the tool and followed by a plain-text response,
yields exactly one invocation with exactly the supplied arguments, exactly
one function-response turn tagged with the same name, and the second
response text verbatim. -/
theorem c5_single_call_roundtrip
    (invoke : String → Args → Except TransportError ToolResult)
    (tools : List ToolDescriptor) (name : String) (args : Args)
    (tr : ToolResult) (txt : String)
    (hknown : name ∈ tools.map ToolDescriptor.name)
    (hok : invoke name args = Except.ok tr) :
    processQueryLoop invoke [⟨[Part.text txt]⟩] ⟨[Part.functionCall name args]⟩ =
      Except.ok ⟨[(name, args)], [(name, tr.text)], txt⟩ := by
  have hrt : responseText ⟨[Part.text txt]⟩ = some txt := by
    simp [responseText, partText, concatAll, String.append_empty]
  simp [processQueryLoop, hok, hrt]

/-- C5 witness: the scenario of the spec — add_number with a=2, b=3
returns 5, the model then says the result, and the trace shows exactly one
invocation and one function response. -/
theorem c5_witness :
    processQueryLoop c5Invoke [⟨[Part.text "The result is 5."]⟩]
        ⟨[Part.functionCall "add_number" [("a", Value.num 2), ("b", Value.num 3)]]⟩ =
      Except.ok ⟨[("add_number", [("a", Value.num 2), ("b", Value.num 3)])],
                 [("add_number", "5")], "The result is 5."⟩ :=
  c5_single_call_roundtrip c5Invoke c5Tools "add_number"
    [("a", Value.num 2), ("b", Value.num 3)] ⟨false, "5"⟩ "The result is 5."
    (by decide) rfl

/-- C6 counterexample: cleanup does not clear self.session, so the second
of two consecutive cleanup calls on a connected client invokes aexit on
the session again — the second close is not a no-op. -/
theorem c6_counterexample :
    (cleanup connectedClient ⟨0, 0⟩).2.sessionAexitCalls = 1 ∧
    (cleanup connectedClient
        (cleanup connectedClient ⟨0, 0⟩).2).2.sessionAexitCalls = 2 :=
  ⟨rfl, rfl⟩

/-- C6 amended: closing a never-connected client is a no-op and cannot
raise, but cleanup does not clear the session fields and records no
Closed state, so a second close of a connected client runs the session
teardown a second time instead of being a no-op. -/
theorem c6_amended (w : World) :
    cleanup ⟨false, false⟩ w = (⟨false, false⟩, w) ∧
    (∀ c : ClientState, c.sessionConnected = true →
      (cleanup c (cleanup c w).2).2.sessionAexitCalls =
        w.sessionAexitCalls + 2) := by
  constructor
  · simp [cleanup]
  · intro c hc
    cases hcs : c.stdioConnected <;> simp [cleanup, hc, hcs]

/-- C6 amended witness: never-connected close is the identity, and the
connected client reaches two session teardowns after two closes. -/
theorem c6_amended_witness :
    cleanup ⟨false, false⟩ ⟨0, 0⟩ = (⟨false, false⟩, ⟨0, 0⟩) ∧
    (cleanup connectedClient
        (cleanup connectedClient ⟨0, 0⟩).2).2.sessionAexitCalls = 0 + 2 :=
  ⟨(c6_amended ⟨0, 0⟩).1, (c6_amended ⟨0, 0⟩).2 connectedClient rfl⟩

/-- C7 counterexample: a tool whose inputSchema carries a required list
but no properties map translates with an empty required list — the list
is not copied verbatim. -/
theorem c7_counterexample :
    (∃ s, c7Tool.inputSchema = some s ∧ s.required = some ["start_date"]) ∧
    translateTool c7Tool = Except.ok ⟨"summarize", "", [], []⟩ :=
  ⟨⟨⟨none, some ["start_date"]⟩, rfl, rfl⟩, rfl⟩

/-- C7 amended: the required list is copied verbatim only when the schema
also contains a properties map; when the properties map is absent the
required list of the declaration is empty even if the schema declares
one. -/
theorem c7_amended (tool : ToolDescriptor) (s : InputSchema)
    (fd : FunctionDeclaration) (hs : tool.inputSchema = some s)
    (hok : translateTool tool = Except.ok fd) :
    (s.properties.isSome = true → fd.required = s.required.getD []) ∧
    (s.properties = none → fd.required = []) := by
  have hfd := (translateTool_ok tool fd hok).2
  have hreq : fd.required = buildRequired tool := by
    rw [hfd]
  constructor
  · intro hps
    rw [hreq]
    cases hp : s.properties with
    | none => rw [hp] at hps; cases hps
    | some props => simp [buildRequired, hs, hp]
  · intro hp
    rw [hreq]
    simp [buildRequired, hs, hp]

/-- C7 amended witness: with both properties and required present, the
required list is copied verbatim. -/
theorem c7_amended_witness :
    ∃ fd, translateTool c7WitnessTool = Except.ok fd ∧ fd.required = ["amount"] :=
  ⟨⟨"add_expense", "Add", [("amount", ⟨GeminiType.NUMBER, ""⟩)], ["amount"]⟩,
    rfl,
    (c7_amended c7WitnessTool
      ⟨some [("amount", ⟨some "number", none⟩)], some ["amount"]⟩
      ⟨"add_expense", "Add", [("amount", ⟨GeminiType.NUMBER, ""⟩)], ["amount"]⟩
      rfl rfl).1 rfl⟩

/-- C1 counterexample: the loop dispatches a function call whose name is
absent from the tool list — call_tool is invoked for it and no failure of
the turn occurs, so the claimed UnknownToolError validation does not
exist in the code. -/
theorem c1_counterexample :
    ("mystery_tool" ∉ c1Tools.map ToolDescriptor.name) ∧
    processQueryLoop c1Invoke [⟨[Part.text "done"]⟩]
        ⟨[Part.functionCall "mystery_tool" []]⟩ =
      Except.ok ⟨[("mystery_tool", [])], [("mystery_tool", "ran anyway")], "done"⟩ :=
  ⟨by decide, rfl⟩

/-- C1 amended: the call loop dispatches the first pending function-call
request to call_tool unconditionally, never checking the name against the
known tool list; the client raises no UnknownToolError — an unknown name
reaches the server, and the outcome (result or transport failure) is
handled exactly like that of a known name. -/
theorem c1_amended_unchecked_dispatch
    (invoke : String → Args → Except TransportError ToolResult)
    (name : String) (args : Args) (parts : List Part) :
    (∀ e, invoke name args = Except.error e →
      ∀ script, processQueryLoop invoke script ⟨Part.functionCall name args :: parts⟩ =
        Except.error (OrchErr.transport e)) ∧
    (∀ tr next rest t2, invoke name args = Except.ok tr →
      processQueryLoop invoke rest next = Except.ok t2 →
      processQueryLoop invoke (next :: rest) ⟨Part.functionCall name args :: parts⟩ =
        Except.ok ⟨(name, args) :: t2.invocations,
                   (name, tr.text) :: t2.functionResponses, t2.finalText⟩) := by
  constructor
  · intro e he script
    cases script with
    | nil => simp [processQueryLoop, he]
    | cons next rest => simp [processQueryLoop, he]
  · intro tr next rest t2 hok hnext
    simp [processQueryLoop, hok, hnext]

/-- C1 amended witness: a name outside every tool list is dispatched and
its result woven into the trace. -/
theorem c1_amended_witness :
    processQueryLoop c1Invoke [⟨[Part.text "over"]⟩]
        ⟨[Part.functionCall "also_not_a_tool" []]⟩ =
      Except.ok ⟨[("also_not_a_tool", [])],
                 [("also_not_a_tool", "ran anyway")], "over"⟩ :=
  (c1_amended_unchecked_dispatch c1Invoke "also_not_a_tool" [] []).2
    ⟨false, "ran anyway"⟩ ⟨[Part.text "over"]⟩ [] ⟨[], [], "over"⟩ rfl rfl

/-- C2: a declared parameter whose type tag has no member in the Gemini
type vocabulary (after the uppercasing the code performs) makes the
translation of that tool fail rather than coerce, while a parameter that
omits its type tag is defaulted to STRING. -/
theorem c2_unmapped_type_fails (tool : ToolDescriptor) (s : InputSchema)
    (props : List (String × ParamInfo))
    (hs : tool.inputSchema = some s) (hp : s.properties = some props) :
    ((∃ pn pi t, (pn, pi) ∈ props ∧ pi.type = some t ∧
        geminiTypeOfString (upperString t) = none) →
      ∃ e, translateTool tool = Except.error e) ∧
    (∀ fd pn pi, translateTool tool = Except.ok fd → (pn, pi) ∈ props →
      pi.type = none →
      (pn, GeminiParam.mk GeminiType.STRING (pi.description.getD "")) ∈
        fd.parameters) := by
  constructor
  · rintro ⟨pn, pi, t, hmem, ht, hbad⟩
    have hmem2 : (pn, upperType pi, pi.description.getD "") ∈ buildProps tool := by
      simp only [buildProps, hs, hp]
      exact List.mem_map_of_mem _ hmem
    have hb2 : geminiTypeOfString (upperType pi) = none := by
      rw [upperType, ht]
      exact hbad
    rcases resolveParams_error_of_bad pn (upperType pi) (pi.description.getD "")
      (buildProps tool) hmem2 hb2 with ⟨e, he⟩
    exact ⟨e, by simp [translateTool, he]⟩
  · intro fd pn pi hok hmem htn
    have hr := (translateTool_ok tool fd hok).1
    have hmem2 : (pn, upperType pi, pi.description.getD "") ∈ buildProps tool := by
      simp only [buildProps, hs, hp]
      exact List.mem_map_of_mem _ hmem
    rcases resolveParams_ok_mem (buildProps tool) fd.parameters hr
      pn (upperType pi) (pi.description.getD "") hmem2 with ⟨gt, hg, hmemps⟩
    have hut : upperType pi = "STRING" := by
      rw [upperType, htn]
      rfl
    rw [hut] at hg
    have h6 : some GeminiType.STRING = some gt := by
      rw [← hg]
      rfl
    injection h6 with h7
    rw [h7]
    exact hmemps

/-- C2 witness: the concrete tool with an unmapped file type fails to
translate. -/
theorem c2_witness : ∃ e, translateTool c2Tool = Except.error e :=
  (c2_unmapped_type_fails c2Tool ⟨some [("blob", ⟨some "file", none⟩)], none⟩
      [("blob", ⟨some "file", none⟩)] rfl rfl).1
    ⟨"blob", ⟨some "file", none⟩, "file", by decide, rfl, by decide⟩

/-- C3: a tool failure reported in-band by the server (an error-flagged
call_tool result) is sent back into the model session as a
function-response carrying the error text and the loop continues; a
transport failure raised by call_tool aborts the turn and propagates out
of the loop to the caller; and the chat loop catches the propagated
failure of a turn, reports it, and keeps reading input instead of
terminating. -/
theorem c3_failure_semantics
    (invoke : String → Args → Except TransportError ToolResult)
    (processQuery : String → Except String String) :
    (∀ name args parts tr next rest t2,
      invoke name args = Except.ok tr → tr.isError = true →
      processQueryLoop invoke rest next = Except.ok t2 →
      processQueryLoop invoke (next :: rest) ⟨Part.functionCall name args :: parts⟩ =
        Except.ok ⟨(name, args) :: t2.invocations,
                   (name, tr.text) :: t2.functionResponses, t2.finalText⟩) ∧
    (∀ name args parts script e, invoke name args = Except.error e →
      processQueryLoop invoke script ⟨Part.functionCall name args :: parts⟩ =
        Except.error (OrchErr.transport e)) ∧
    (∀ line rest e,
      lowerString (stripString line) ≠ "quit" →
      lowerString (stripString line) ≠ "exit" →
      lowerString (stripString line) ≠ "q" →
      stripString line ≠ "" →
      processQuery (stripString line) = Except.error e →
      chatLoop processQuery (line :: rest) =
        TurnResult.reportedError e :: chatLoop processQuery rest) := by
  refine ⟨?_, ?_, ?_⟩
  · intro name args parts tr next rest t2 hok htr hnext
    simp [processQueryLoop, hok, hnext]
  · intro name args parts script e he
    cases script with
    | nil => simp [processQueryLoop, he]
    | cons next rest => simp [processQueryLoop, he]
  · intro line rest e h1 h2 h3 h4 h5
    have hstep : chatStep processQuery line = TurnResult.reportedError e := by
      unfold chatStep
      rw [if_neg, if_neg h4, h5]
      rintro (hc | hc | hc)
      · exact h1 hc
      · exact h2 hc
      · exact h3 hc
    simp only [chatLoop, hstep]

/-- C3 witness: the in-band tool error is fed back and the loop finishes
on the next text; the transport failure surfaces as the loop result; the
shell reports a failed turn and still processes the next line. -/
theorem c3_witness :
    (processQueryLoop c3Invoke [⟨[Part.text "Sorry, that date is invalid."]⟩]
        ⟨[Part.functionCall "add_expense" []]⟩ =
      Except.ok ⟨[("add_expense", [])],
                 [("add_expense", "Invalid date format")],
                 "Sorry, that date is invalid."⟩) ∧
    (processQueryLoop c3Invoke [] ⟨[Part.functionCall "list_expenses" []]⟩ =
      Except.error (OrchErr.transport ⟨"connection closed"⟩)) ∧
    (chatLoop (fun _ => Except.error "model unavailable") ["hello", "quit"] =
      [TurnResult.reportedError "model unavailable", TurnResult.quit]) := by
  refine ⟨?_, ?_, ?_⟩
  · exact (c3_failure_semantics c3Invoke (fun _ => Except.error "model unavailable")).1
      "add_expense" [] [] ⟨true, "Invalid date format"⟩
      ⟨[Part.text "Sorry, that date is invalid."]⟩ []
      ⟨[], [], "Sorry, that date is invalid."⟩ rfl rfl rfl
  · exact (c3_failure_semantics c3Invoke (fun _ => Except.error "model unavailable")).2.1
      "list_expenses" [] [] [] ⟨"connection closed"⟩ rfl
  · have h := (c3_failure_semantics c3Invoke
        (fun _ => Except.error "model unavailable")).2.2
      "hello" ["quit"] "model unavailable"
      (by decide) (by decide) (by decide) (by decide) rfl
    rw [h]
    rfl

end MCP
